import Mathlib

/-!
Shallow embedding of `src/http/router.ts` (the `Router` HTTP request router
of AaronO/deno_std) and verification of its specification.

The router state is three fields: `#routeMap : Map<string, Handler>`,
`#orderedRoutes : string[]` and `#hosts : boolean`.  A JS `Map` keyed by
strings is embedded as an insertion-ordered association list; a JS string as
a Lean `String` (the routes and paths involved are ASCII, so JS UTF-16
`.length` agrees with `String.length`).  Handlers are opaque values of a
type parameter `H`; invoking a handler is an explicit parameter of the
dispatch embedding.  The two external collaborators that `router.ts`
imports, `normalize` from `../path/posix.ts` and the URL parser used by
`_getHostname`, are parameters of the dispatch functions.
-/

namespace HttpRouter

/-- Embeds `Map.prototype.has` for a string-keyed JS `Map` represented as an
insertion-ordered association list. -/
def mapHas {H : Type} (m : List (String × H)) (k : String) : Bool :=
  m.any (fun p => p.1 == k)

/-- Embeds `Map.prototype.get` (returning `undefined` as `none`). -/
def mapGet {H : Type} (m : List (String × H)) (k : String) : Option H :=
  (m.find? (fun p => p.1 == k)).map (fun p => p.2)

/-- Embeds `Map.prototype.set`: replaces the value in place when the key is
present, otherwise appends the new entry. -/
def mapSet {H : Type} (m : List (String × H)) (k : String) (v : H) : List (String × H) :=
  if mapHas m k then m.map (fun p => if p.1 == k then (k, v) else p)
  else m ++ [(k, v)]

/-- Embeds `s.at(-1)` on a JS string: the last character, or `undefined`
(`none`) when the string is empty. -/
def atLast (s : String) : Option Char :=
  s.data.getLast?

/-- Embeds `Array.prototype.findIndex`: the first index satisfying the
predicate, or `-1` when there is none. -/
def jsFindIdx {α : Type} (xs : List α) (p : α → Bool) : Int :=
  match xs.findIdx? p with
  | some i => (i : Int)
  | none => -1

/-- Index actually used by `Array.prototype.splice(start, ...)`: a negative
`start` counts back from the end and is clamped at `0`; a `start` past the
end is clamped at the length. -/
def spliceIdx (len : Nat) (start : Int) : Nat :=
  if start < 0 then ((len : Int) + start).toNat
  else min start.toNat len

/-- Embeds `xs.splice(start, 0, item)`: insert `item` at the (clamped)
splice index, deleting nothing. -/
def splice0 {α : Type} (xs : List α) (start : Int) (item : α) : List α :=
  let i := spliceIdx xs.length start
  xs.take i ++ item :: xs.drop i

/-- The state of a `Router`: fields `#routeMap`, `#orderedRoutes`, `#hosts`
of the `Router` class. -/
structure Router (H : Type) where
  routeMap : List (String × H)
  orderedRoutes : List String
  hosts : Bool

/-- A freshly constructed `Router`. -/
def Router.empty {H : Type} : Router H :=
  { routeMap := [], orderedRoutes := [], hosts := false }

/-- The two registration errors thrown by `Router.handle`:
`ERROR_INVALID_ROUTE` ("Invalid route") and the "already registered" error. -/
inductive RouterError where
  | invalidRoute
  | duplicateRoute

/-- Embeds `Router.handle(route, handler)`.  Throwing is embedded as
returning `.error`; the mutated router is returned on success.  Note the
source computes `this.#orderedRoutes.findIndex(...)`, which is `-1` when no
strictly shorter entry exists, and passes that unchecked to `splice`. -/
def Router.handle {H : Type} (r : Router H) (route : String) (handler : H) :
    Except RouterError (Router H) :=
  if route == "" then
    .error .invalidRoute
  else if mapHas r.routeMap route then
    .error .duplicateRoute
  else
    let routeMap := mapSet r.routeMap route handler
    let orderedRoutes :=
      if atLast route == some '/' then
        let index := jsFindIdx r.orderedRoutes
          (fun orderedRoute => orderedRoute.length < route.length)
        splice0 r.orderedRoutes index route
      else
        r.orderedRoutes
    let hosts := if route.data.head? != some '/' then true else r.hosts
    .ok { routeMap := routeMap, orderedRoutes := orderedRoutes, hosts := hosts }

/-- The router a caller observes after `Router.handle`: the new state on
success, the untouched old state when the call threw. -/
def Router.handleOrKeep {H : Type} (r : Router H) (route : String) (handler : H) : Router H :=
  match r.handle route handler with
  | .ok r2 => r2
  | .error _ => r

/-- Embeds `Router.#shouldRedirect(host, path)`: the two loops over
`[path, host + path]` written out. -/
def Router.shouldRedirect {H : Type} (r : Router H) (host path : String) : Bool :=
  if mapHas r.routeMap path then false
  else if mapHas r.routeMap (host ++ path) then false
  else
    let hasTrailingSlash := atLast path == some '/'
    if mapHas r.routeMap (path ++ "/") then !hasTrailingSlash
    else if mapHas r.routeMap (host ++ path ++ "/") then !hasTrailingSlash
    else false

/-- Embeds `String.prototype.startsWith(search)` on JS strings: whether the
character sequence of `s` begins with that of `search`. -/
def jsStartsWith (s search : String) : Bool :=
  search.data.isPrefixOf s.data

/-- Embeds `Router.#match(route)`: exact `#routeMap` lookup first, then the
scan of `#orderedRoutes` for the first registered route the candidate
starts with, returning that route's `#routeMap` entry. -/
def Router.matchRoute {H : Type} (r : Router H) (route : String) : Option H :=
  match mapGet r.routeMap route with
  | some handler => some handler
  | none =>
    match r.orderedRoutes.find? (fun registeredRoute => jsStartsWith route registeredRoute) with
    | some registeredRoute => mapGet r.routeMap registeredRoute
    | none => none

/-- Result of `Router.#matchHandler`: a registered handler, or the
synthesized "Not Found" handler. -/
inductive Matched (H : Type) where
  | user (handler : H)
  | notFound

/-- Embeds `Router.#matchHandler(host, path)`: when `#hosts` is set, try
`#match(host + path)` first; fall back to `#match(path)`; fall back to the
"Not Found" handler. -/
def Router.matchHandler {H : Type} (r : Router H) (host path : String) : Matched H :=
  let handler := if r.hosts then r.matchRoute (host ++ path) else none
  match handler with
  | some h => .user h
  | none =>
    match r.matchRoute path with
    | some h => .user h
    | none => .notFound

/-- The components of a parsed request URL that the router reads or
rewrites.  `protocol` includes the trailing colon (as in the Web `URL`
class), `search` includes its leading question mark and `hash` its leading
number sign, each empty when absent. -/
structure URLModel where
  protocol : String
  hostname : String
  port : String
  pathname : String
  search : String
  hash : String

/-- Embeds `URL.prototype.toString` (the serialized href) for the URL
shapes above. -/
def urlToString (u : URLModel) : String :=
  u.protocol ++ "//" ++ u.hostname ++ (if u.port == "" then "" else ":" ++ u.port)
    ++ u.pathname ++ u.search ++ u.hash

/-- The parts of a `Request` the router reads: its parsed URL and the value
of its `host` header (`none` when the header is absent). -/
structure RequestModel where
  url : URLModel
  hostHeader : Option String

/-- Embeds `_getHostname(headers, url)`.  `parseHostHeader` stands for the
external URL parser applied as `new URL("proto://" + hostHeader).hostname`;
it returns `none` when that constructor throws (the WHATWG URL standard
rejects authorities containing forbidden host code points, such as a
space).  An absent or empty (falsy) header falls back to `url.hostname`. -/
def _getHostname (parseHostHeader : String → Option String) (req : RequestModel) :
    Option String :=
  match req.hostHeader with
  | some hostHeader =>
    if hostHeader == "" then some req.url.hostname else parseHostHeader hostHeader
  | none => some req.url.hostname

/-- A produced HTTP response, as far as the router constructs one: status
code, body (`none` embeds a `null` body) and header list. -/
structure ResponseModel where
  status : Nat
  body : Option String
  headers : List (String × String)

/-- Modelled from the spec: the status table collaborator (`http_status.ts`
is imported by `router.ts` but is not part of the source tree).  Section 6
of the spec requires it to map 404 to the reason phrase "Not Found" and to
know 301 "Moved Permanently". -/
def STATUS_TEXT : Nat → Option String
  | 301 => some "Moved Permanently"
  | 404 => some "Not Found"
  | _ => none

/-- Modelled from the spec: `Status.NotFound` of `http_status.ts`. -/
def Status.NotFound : Nat := 404

/-- Modelled from the spec: `Status.MovedPermanently` of `http_status.ts`. -/
def Status.MovedPermanently : Nat := 301

/-- The response produced by invoking the handler `_notFoundHandler()`
returns: status 404, body the 404 status text, the two fixed headers. -/
def _notFoundResponse : ResponseModel :=
  { status := Status.NotFound
    body := STATUS_TEXT Status.NotFound
    headers := [("content-type", "text/plain; charset=utf-8"),
                ("x-content-type-options", "nosniff")] }

/-- The response produced by invoking `_redirectHandler(url, status)`:
a `null` body and a `location` header holding `url.toString()`. -/
def _redirectResponse (url : URLModel) (status : Nat) : ResponseModel :=
  { status := status, body := none, headers := [("location", urlToString url)] }

/-- How `Router.#getHandler` resolves a request: a registered handler, a
301 redirect to the given rewritten URL, or the "Not Found" handler. -/
inductive Resolution (H : Type) where
  | user (handler : H)
  | redirect (url : URLModel)
  | notFound

/-- Embeds `Router.#getHandler(request)`.  `normalize` stands for the
external path normalizer from `../path/posix.ts`.  The single `.error`
outcome is the exception propagating out of `_getHostname` when the URL
constructor rejects the `host` header; every other path through the source
returns a handler, embedded here as the `Resolution` it resolves to. -/
def Router.getHandler {H : Type} (r : Router H) (parseHostHeader : String → Option String)
    (normalize : String → String) (req : RequestModel) : Except Unit (Resolution H) :=
  match _getHostname parseHostHeader req with
  | none => .error ()
  | some hostname =>
    let path := normalize req.url.pathname
    if r.shouldRedirect hostname path then
      .ok (.redirect { req.url with pathname := path ++ "/" })
    else if path != req.url.pathname then
      .ok (.redirect { req.url with pathname := path })
    else
      match r.matchHandler hostname path with
      | .user h => .ok (.user h)
      | .notFound => .ok .notFound

/-- Embeds `Router.handler(request, connInfo)`: resolve via `#getHandler`
and invoke the resolved handler on the request.  `invoke` stands for
calling a registered handler with `(request, connInfo)`; the synthesized
redirect and 404 handlers ignore their arguments and build the fixed
responses, exactly as `_redirectHandler` and `_notFoundHandler` do. -/
def Router.handler {H : Type} (r : Router H) (parseHostHeader : String → Option String)
    (normalize : String → String) (invoke : H → RequestModel → ResponseModel)
    (req : RequestModel) : Except Unit ResponseModel :=
  match r.getHandler parseHostHeader normalize req with
  | .error e => .error e
  | .ok (.user h) => .ok (invoke h req)
  | .ok (.redirect url) => .ok (_redirectResponse url Status.MovedPermanently)
  | .ok .notFound => .ok _notFoundResponse

/-- The state-passing form of `Router.handler`: the method and the private
helpers it calls (`#getHandler`, `#shouldRedirect`, `#matchHandler`,
`#match`) only read `#routeMap`, `#orderedRoutes` and `#hosts` — none of
them contains an assignment to a field — so the state a dispatch leaves
behind is its input state. -/
def Router.dispatchStep {H : Type} (r : Router H) (parseHostHeader : String → Option String)
    (normalize : String → String) (invoke : H → RequestModel → ResponseModel)
    (req : RequestModel) : Router H × Except Unit ResponseModel :=
  (r, r.handler parseHostHeader normalize invoke req)

/-- Router states reachable from a fresh router by successful `handle`
calls. -/
inductive Reachable {H : Type} : Router H → Prop where
  | empty : Reachable Router.empty
  | step {r r2 : Router H} {route : String} {h : H} :
      Reachable r → r.handle route h = .ok r2 → Reachable r2

/-- Whether a list of strings is sorted by non-increasing string length. -/
def nonIncreasingLen : List String → Bool
  | [] => true
  | [_] => true
  | a :: b :: rest => (b.length ≤ a.length) && nonIncreasingLen (b :: rest)

/-! Helper lemmas shared by the claim theorems. -/

theorem string_append_slash_ne (s : String) : s ++ "/" ≠ s := by
  intro h
  have h2 := congrArg String.length h
  simp [String.length_append] at h2
  exact absurd h2 (by decide)

/-- Characterization of `Router.#shouldRedirect`: it answers `true` exactly
when neither candidate key is registered, some candidate with an appended
slash is, and the path does not already end in a slash. -/
theorem shouldRedirect_iff {H : Type} (r : Router H) (host path : String) :
    r.shouldRedirect host path = true ↔
      (mapHas r.routeMap path = false ∧ mapHas r.routeMap (host ++ path) = false ∧
        (mapHas r.routeMap (path ++ "/") = true ∨
          mapHas r.routeMap (host ++ path ++ "/") = true) ∧
        atLast path ≠ some '/') := by
  unfold Router.shouldRedirect
  cases h1 : mapHas r.routeMap path <;>
    cases h2 : mapHas r.routeMap (host ++ path) <;>
      cases h3 : mapHas r.routeMap (path ++ "/") <;>
        cases h4 : mapHas r.routeMap (host ++ path ++ "/") <;>
          by_cases h5 : atLast path = some '/' <;>
            simp [h1, h2, h3, h4, h5]

/-- Unfolding of `Router.#getHandler` once the hostname has resolved. -/
theorem getHandler_eq {H : Type} (r : Router H) (parseHostHeader : String → Option String)
    (normalize : String → String) (req : RequestModel) (hostname : String)
    (hh : _getHostname parseHostHeader req = some hostname) :
    r.getHandler parseHostHeader normalize req =
      (if r.shouldRedirect hostname (normalize req.url.pathname) then
        .ok (.redirect { req.url with pathname := normalize req.url.pathname ++ "/" })
      else if normalize req.url.pathname != req.url.pathname then
        .ok (.redirect { req.url with pathname := normalize req.url.pathname })
      else
        match r.matchHandler hostname (normalize req.url.pathname) with
        | .user h => .ok (.user h)
        | .notFound => .ok .notFound) := by
  unfold Router.getHandler
  rw [hh]

/-! The claim theorems. -/

/-- C1: the claim fails on the code.  Registering the subtree route
"/a/b/" and then the shorter subtree route "/a/" (both calls succeed)
leaves `orderedRoutes = ["/a/", "/a/b/"]`: because `findIndex` returns `-1`
when no strictly shorter entry exists and `splice(-1, 0, route)` inserts
before the last element instead of appending, the new route is not placed
at the end and the resulting list is not non-increasing in length. -/
theorem handle_splice_breaks_descending_order :
    (Router.empty.handle "/a/b/" (1 : Nat) >>= fun r => r.handle "/a/" 2).map
      (fun r => r.orderedRoutes) = .ok ["/a/", "/a/b/"] ∧
    nonIncreasingLen ["/a/", "/a/b/"] = false := by
  exact ⟨rfl, rfl⟩

/-- C2: the claim fails on the code.  Registering "/a/b/c/", "/a/b/" and
"/a/" in that order (all successful) and dispatching the path "/a/b/c/d"
resolves to the handler registered for "/a/b/" (handler 2), not the
longest-prefix handler of "/a/b/c/" (handler 1): the `splice(-1, ...)` slip
of `handle` leaves `orderedRoutes = ["/a/b/", "/a/", "/a/b/c/"]`, and the
first-hit scan of `#match` stops at "/a/b/". -/
theorem dispatch_depends_on_registration_order :
    ((Router.empty.handle "/a/b/c/" (1 : Nat) >>= fun r =>
        r.handle "/a/b/" 2 >>= fun r => r.handle "/a/" 3).map
      (fun r => r.getHandler (fun _ => none) (fun s => s)
        { url := { protocol := "http:", hostname := "0.0.0.0", port := "4505",
                   pathname := "/a/b/c/d", search := "", hash := "" },
          hostHeader := none })) = .ok (.ok (.user 2)) := by
  exact rfl

/-- C3: dispatch produces the trailing-slash 301 redirect exactly when
neither the normalized path nor the hostname-qualified path is an exact
key, one of those two candidates with an appended slash is a key, and the
normalized path does not already end in a slash; the redirect's Location is
the request URL with the slash appended to the (normalized) path, the query
string carried along unchanged. -/
theorem dispatch_trailing_slash_redirect {H : Type} (r : Router H)
    (parseHostHeader : String → Option String) (normalize : String → String)
    (invoke : H → RequestModel → ResponseModel) (req : RequestModel) (hostname : String)
    (hh : _getHostname parseHostHeader req = some hostname) :
    (r.getHandler parseHostHeader normalize req =
        .ok (.redirect { req.url with pathname := normalize req.url.pathname ++ "/" }) ↔
      (mapHas r.routeMap (normalize req.url.pathname) = false ∧
        mapHas r.routeMap (hostname ++ normalize req.url.pathname) = false ∧
        (mapHas r.routeMap (normalize req.url.pathname ++ "/") = true ∨
          mapHas r.routeMap (hostname ++ normalize req.url.pathname ++ "/") = true) ∧
        atLast (normalize req.url.pathname) ≠ some '/')) ∧
    (r.shouldRedirect hostname (normalize req.url.pathname) = true →
      r.handler parseHostHeader normalize invoke req =
        .ok { status := 301, body := none,
              headers := [("location",
                urlToString { req.url with pathname := normalize req.url.pathname ++ "/" })] }) := by
  have hg := getHandler_eq r parseHostHeader normalize req hostname hh
  constructor
  · rw [← shouldRedirect_iff r hostname (normalize req.url.pathname)]
    constructor
    · intro hget
      by_cases hsr : r.shouldRedirect hostname (normalize req.url.pathname) = true
      · exact hsr
      · exfalso
        rw [Bool.not_eq_true] at hsr
        rw [hg, hsr] at hget
        simp only [if_false, Bool.false_eq_true] at hget
        by_cases hdiff : (normalize req.url.pathname != req.url.pathname) = true
        · rw [if_pos hdiff] at hget
          simp [URLModel.mk.injEq] at hget
          exact string_append_slash_ne _ hget.symm
        · rw [if_neg hdiff] at hget
          cases hm : r.matchHandler hostname (normalize req.url.pathname) <;>
            rw [hm] at hget <;> simp at hget
    · intro hsr
      rw [hg, hsr]
      simp
  · intro hsr
    unfold Router.handler
    rw [hg, hsr]
    simp [_redirectResponse, Status.MovedPermanently]

/-- Witness for C3: a router holding only "/path/" and a request for
`GET /path?qs=test#hash` produce a 301 whose Location is
`http://0.0.0.0:4505/path/?qs=test#hash`. -/
theorem dispatch_trailing_slash_redirect_witness :
    ({ routeMap := [("/path/", (1 : Nat))], orderedRoutes := ["/path/"],
       hosts := false } : Router Nat).handler (fun _ => none) (fun s => s)
      (fun _ _ => { status := 200, body := none, headers := [] })
      { url := { protocol := "http:", hostname := "0.0.0.0", port := "4505",
                 pathname := "/path", search := "?qs=test", hash := "#hash" },
        hostHeader := none } =
      .ok { status := 301, body := none,
            headers := [("location", "http://0.0.0.0:4505/path/?qs=test#hash")] } := by
  have h := (dispatch_trailing_slash_redirect
    ({ routeMap := [("/path/", (1 : Nat))], orderedRoutes := ["/path/"],
       hosts := false } : Router Nat) (fun _ => none) (fun s => s)
    (fun _ _ => { status := 200, body := none, headers := [] })
    { url := { protocol := "http:", hostname := "0.0.0.0", port := "4505",
               pathname := "/path", search := "?qs=test", hash := "#hash" },
      hostHeader := none } "0.0.0.0" rfl).2 rfl
  exact h.trans (by rfl)

/-- C4: within a phase `#match` consults the exact table before the subtree
scan, so an exact hit is always the result; when `#hosts` is set, any hit
of the host-qualified phase (exact or subtree) is the dispatch result, so a
host-qualified subtree match beats a host-less exact match; and the
host-less phase (exact then subtrees on the path alone) decides the result
only when host routing is off or the host-qualified phase missed. -/
theorem match_resolution_order {H : Type} (r : Router H) (host path rt : String) :
    (∀ h, mapGet r.routeMap rt = some h → r.matchRoute rt = some h) ∧
    (r.hosts = true → ∀ h, r.matchRoute (host ++ path) = some h →
      r.matchHandler host path = .user h) ∧
    ((r.hosts = false ∨ r.matchRoute (host ++ path) = none) →
      r.matchHandler host path =
        (match r.matchRoute path with
         | some h => .user h
         | none => .notFound)) := by
  refine ⟨?_, ?_, ?_⟩
  · intro h hm
    unfold Router.matchRoute
    rw [hm]
  · intro hhosts h hm
    unfold Router.matchHandler
    rw [hhosts, if_pos rfl, hm]
  · intro hcase
    unfold Router.matchHandler
    rcases hcase with hf | hn
    · rw [hf]
      simp
    · cases hhosts : r.hosts <;> simp [hn]

/-- Witness for C4: with the host route "0.0.0.1/" and the host-less exact
route "/x" registered, a request from host 0.0.0.1 for "/x" resolves to the
host-qualified subtree handler 1, not the host-less exact handler 2. -/
theorem match_resolution_order_witness :
    ({ routeMap := [("0.0.0.1/", (1 : Nat)), ("/x", 2)], orderedRoutes := ["0.0.0.1/"],
       hosts := true } : Router Nat).matchHandler "0.0.0.1" "/x" = .user 1 ∧
    mapGet ({ routeMap := [("0.0.0.1/", (1 : Nat)), ("/x", 2)],
              orderedRoutes := ["0.0.0.1/"], hosts := true } : Router Nat).routeMap "/x" =
      some 2 := by
  refine ⟨(match_resolution_order ({ routeMap := [("0.0.0.1/", (1 : Nat)), ("/x", 2)],
                                     orderedRoutes := ["0.0.0.1/"],
                                     hosts := true } : Router Nat)
    "0.0.0.1" "/x" "/x").2.1 rfl 1 (by rfl), by rfl⟩

/-- C5: `Router.handle` throws "Invalid route" exactly on the empty route,
throws the "already registered" error exactly on a non-empty route already
present in the exact table, and on any failure the router a caller observes
is the untouched input state (atomic register-or-reject). -/
theorem handle_error_conditions {H : Type} (r : Router H) (route : String) (h : H) :
    (r.handle route h = .error .invalidRoute ↔ route = "") ∧
    (r.handle route h = .error .duplicateRoute ↔
      (route ≠ "" ∧ mapHas r.routeMap route = true)) ∧
    (∀ e, r.handle route h = .error e → r.handleOrKeep route h = r) := by
  unfold Router.handleOrKeep
  unfold Router.handle
  by_cases h1 : route = ""
  · simp [h1]
  · have h1b : (route == "") = false := by simp [h1]
    rw [h1b]
    cases h2 : mapHas r.routeMap route <;> simp [h1]

/-- Witness for C5: the empty route is rejected as invalid; registering
"/a" twice fails as a duplicate and leaves the router unchanged. -/
theorem handle_error_conditions_witness :
    Router.empty.handle "" (0 : Nat) = .error .invalidRoute ∧
    ({ routeMap := [("/a", (7 : Nat))], orderedRoutes := [],
       hosts := false } : Router Nat).handle "/a" 0 = .error .duplicateRoute ∧
    ({ routeMap := [("/a", (7 : Nat))], orderedRoutes := [],
       hosts := false } : Router Nat).handleOrKeep "/a" 0 =
      { routeMap := [("/a", 7)], orderedRoutes := [], hosts := false } := by
  have hdup :=
    (handle_error_conditions
      ({ routeMap := [("/a", (7 : Nat))], orderedRoutes := [], hosts := false } : Router Nat)
      "/a" 0).2.1.mpr ⟨by decide, by rfl⟩
  refine ⟨(handle_error_conditions Router.empty "" 0).1.mpr rfl, hdup, ?_⟩
  exact (handle_error_conditions
    ({ routeMap := [("/a", (7 : Nat))], orderedRoutes := [], hosts := false } : Router Nat)
    "/a" 0).2.2 _ hdup

/-- C6: when the normalized path equals the raw path, no trailing-slash
redirect is due and both match phases miss, dispatch answers the 404
response: body the "Not Found" status text, headers
`content-type: text/plain; charset=utf-8` and
`x-content-type-options: nosniff`. -/
theorem dispatch_not_found_response {H : Type} (r : Router H)
    (parseHostHeader : String → Option String) (normalize : String → String)
    (invoke : H → RequestModel → ResponseModel) (req : RequestModel) (hostname : String)
    (hh : _getHostname parseHostHeader req = some hostname)
    (hnorm : normalize req.url.pathname = req.url.pathname)
    (hnr : r.shouldRedirect hostname (normalize req.url.pathname) = false)
    (hm1 : r.matchRoute (hostname ++ normalize req.url.pathname) = none)
    (hm2 : r.matchRoute (normalize req.url.pathname) = none) :
    r.handler parseHostHeader normalize invoke req =
      .ok { status := 404, body := some "Not Found",
            headers := [("content-type", "text/plain; charset=utf-8"),
                        ("x-content-type-options", "nosniff")] } := by
  have hmh : r.matchHandler hostname (normalize req.url.pathname) = .notFound := by
    unfold Router.matchHandler
    cases hb : r.hosts <;> simp [hm1, hm2]
  have hbne : (normalize req.url.pathname != req.url.pathname) = false := by
    simp [hnorm]
  unfold Router.handler
  rw [getHandler_eq r parseHostHeader normalize req hostname hh, hnr]
  simp only [Bool.false_eq_true, if_false, hbne, hmh]
  rfl

/-- Witness for C6: an empty router dispatching `GET /nope` yields the 404
response. -/
theorem dispatch_not_found_response_witness :
    (Router.empty : Router Nat).handler (fun _ => none) (fun s => s)
      (fun _ _ => { status := 200, body := none, headers := [] })
      { url := { protocol := "http:", hostname := "0.0.0.0", port := "4505",
                 pathname := "/nope", search := "", hash := "" },
        hostHeader := none } =
      .ok { status := 404, body := some "Not Found",
            headers := [("content-type", "text/plain; charset=utf-8"),
                        ("x-content-type-options", "nosniff")] } := by
  exact dispatch_not_found_response (Router.empty : Router Nat) (fun _ => none) (fun s => s)
    (fun _ _ => { status := 200, body := none, headers := [] })
    { url := { protocol := "http:", hostname := "0.0.0.0", port := "4505",
               pathname := "/nope", search := "", hash := "" },
      hostHeader := none } "0.0.0.0" rfl rfl rfl rfl rfl

/-- C7: when no trailing-slash redirect is due but normalization changed
the path, dispatch answers a 301 whose Location is the request URL with the
path replaced by the normalized path; the URL's query and fragment
components are carried along unchanged. -/
theorem dispatch_normalization_redirect {H : Type} (r : Router H)
    (parseHostHeader : String → Option String) (normalize : String → String)
    (invoke : H → RequestModel → ResponseModel) (req : RequestModel) (hostname : String)
    (hh : _getHostname parseHostHeader req = some hostname)
    (hnr : r.shouldRedirect hostname (normalize req.url.pathname) = false)
    (hdiff : normalize req.url.pathname ≠ req.url.pathname) :
    r.handler parseHostHeader normalize invoke req =
      .ok { status := 301, body := none,
            headers := [("location",
              urlToString { req.url with pathname := normalize req.url.pathname })] } ∧
    ({ req.url with pathname := normalize req.url.pathname }).search = req.url.search ∧
    ({ req.url with pathname := normalize req.url.pathname }).hash = req.url.hash := by
  have hbne : (normalize req.url.pathname != req.url.pathname) = true := by
    simp [hdiff]
  refine ⟨?_, rfl, rfl⟩
  unfold Router.handler
  rw [getHandler_eq r parseHostHeader normalize req hostname hh, hnr]
  simp only [Bool.false_eq_true, if_false, hbne, if_true]
  simp [_redirectResponse, Status.MovedPermanently]

/-- Witness for C7: a router holding "/path/" and a request for the
non-normalized `/path/../path//.?qs=test#hash` (normalizing to "/path/")
yield a 301 to `http://0.0.0.0:4505/path/?qs=test#hash`. -/
theorem dispatch_normalization_redirect_witness :
    ({ routeMap := [("/path/", (1 : Nat))], orderedRoutes := ["/path/"],
       hosts := false } : Router Nat).handler (fun _ => none)
      (fun s => if s == "/path/../path//." then "/path/" else s)
      (fun _ _ => { status := 200, body := none, headers := [] })
      { url := { protocol := "http:", hostname := "0.0.0.0", port := "4505",
                 pathname := "/path/../path//.", search := "?qs=test", hash := "#hash" },
        hostHeader := none } =
      .ok { status := 301, body := none,
            headers := [("location", "http://0.0.0.0:4505/path/?qs=test#hash")] } := by
  have h := (dispatch_normalization_redirect
    ({ routeMap := [("/path/", (1 : Nat))], orderedRoutes := ["/path/"],
       hosts := false } : Router Nat) (fun _ => none)
    (fun s => if s == "/path/../path//." then "/path/" else s)
    (fun _ _ => { status := 200, body := none, headers := [] })
    { url := { protocol := "http:", hostname := "0.0.0.0", port := "4505",
               pathname := "/path/../path//.", search := "?qs=test", hash := "#hash" },
      hostHeader := none } "0.0.0.0" rfl rfl (by decide)).1
  exact h.trans (by rfl)

/-- Modelled from the spec: the external URL parser `_getHostname` applies
to the `host` header, as `new URL("proto://" + hostHeader).hostname` (the
parser itself is a platform collaborator, not in the source tree).  Per the
WHATWG URL standard the host parser fails — the constructor throws — when
the authority contains a forbidden host code point such as a space
(U+0020); on success the hostname is the authority up to the port colon
(U+003A). -/
def urlHostParse (s : String) : Option String :=
  if s.data.any (fun c => c.toNat == 32) then none
  else some (String.mk (s.data.takeWhile (fun c => c.toNat != 58)))

/-- Counterexample to C8 as stated: a request whose `host` header is
"a b" (a header value the platform accepts but whose authority the URL
parser rejects) makes dispatch throw instead of resolving to a response. -/
theorem dispatch_throws_on_unparsable_host_header :
    (Router.empty : Router Nat).handler urlHostParse (fun s => s)
      (fun _ _ => { status := 200, body := none, headers := [] })
      { url := { protocol := "http:", hostname := "0.0.0.0", port := "4505",
                 pathname := "/", search := "", hash := "" },
        hostHeader := some "a b" } = .error () := by
  exact rfl

/-- C8 (amended): whenever the hostname resolves — the `host` header is
absent, empty, or accepted by the URL parser — dispatch raises no error and
resolves to exactly one outcome: the matched handler's result, a
synthesized 301 redirect, or the synthesized 404. -/
theorem dispatch_total_for_parsable_host {H : Type} (r : Router H)
    (parseHostHeader : String → Option String) (normalize : String → String)
    (invoke : H → RequestModel → ResponseModel) (req : RequestModel) (hostname : String)
    (hh : _getHostname parseHostHeader req = some hostname) :
    ∃ res : Resolution H, r.getHandler parseHostHeader normalize req = .ok res ∧
      r.handler parseHostHeader normalize invoke req =
        .ok (match res with
             | .user h => invoke h req
             | .redirect url => _redirectResponse url Status.MovedPermanently
             | .notFound => _notFoundResponse) := by
  have hg := getHandler_eq r parseHostHeader normalize req hostname hh
  unfold Router.handler
  rw [hg]
  by_cases hsr : r.shouldRedirect hostname (normalize req.url.pathname) = true
  · rw [if_pos hsr]
    exact ⟨_, rfl, rfl⟩
  · rw [Bool.not_eq_true] at hsr
    rw [hsr]
    simp only [Bool.false_eq_true, if_false]
    by_cases hdiff : (normalize req.url.pathname != req.url.pathname) = true
    · rw [if_pos hdiff]
      exact ⟨_, rfl, rfl⟩
    · rw [if_neg hdiff]
      cases hm : r.matchHandler hostname (normalize req.url.pathname)
      · exact ⟨_, rfl, rfl⟩
      · exact ⟨_, rfl, rfl⟩

/-- Witness for the amended C8: a request carrying the parsable host header
"0.0.0.1:4505" dispatches against the empty router without raising,
resolving to the synthesized 404 outcome. -/
theorem dispatch_total_for_parsable_host_witness :
    (Router.empty : Router Nat).handler urlHostParse (fun s => s)
      (fun _ _ => { status := 200, body := none, headers := [] })
      { url := { protocol := "http:", hostname := "0.0.0.0", port := "4505",
                 pathname := "/", search := "", hash := "" },
        hostHeader := some "0.0.0.1:4505" } = .ok _notFoundResponse := by
  obtain ⟨res, h1, h2⟩ := dispatch_total_for_parsable_host (Router.empty : Router Nat)
    urlHostParse (fun s => s) (fun _ _ => { status := 200, body := none, headers := [] })
    { url := { protocol := "http:", hostname := "0.0.0.0", port := "4505",
               pathname := "/", search := "", hash := "" },
      hostHeader := some "0.0.0.1:4505" } "0.0.0.1" rfl
  have h3 : (Except.ok res : Except Unit (Resolution Nat)) = .ok .notFound := by
    rw [← h1]
    rfl
  injection h3 with h4
  rw [h4] at h2
  exact h2

/-- C9: dispatch is a pure read of the route table: the state-passing form
of `Router.handler` returns the input state untouched (the exact table, the
subtree list and the `#hosts` flag included), and dispatching the same
request again against the state the first dispatch left behind produces an
equal response. -/
theorem dispatch_pure_frame {H : Type} (r : Router H)
    (parseHostHeader : String → Option String) (normalize : String → String)
    (invoke : H → RequestModel → ResponseModel) (req : RequestModel) :
    r.dispatchStep parseHostHeader normalize invoke req =
      (r, r.handler parseHostHeader normalize invoke req) ∧
    (r.dispatchStep parseHostHeader normalize invoke req).1 = r ∧
    ((r.dispatchStep parseHostHeader normalize invoke req).1.dispatchStep
        parseHostHeader normalize invoke req).2 =
      (r.dispatchStep parseHostHeader normalize invoke req).2 := by
  exact ⟨rfl, rfl, rfl⟩

/-- Shape of a successful `Router.handle`: the route was not yet registered,
the exact table gains exactly the new binding at the end, and the ordered
list is either the splice-insert of the new route (when it ends in a slash)
or untouched. -/
theorem handle_ok_fields {H : Type} {r r2 : Router H} {route : String} {hd : H}
    (hstep : r.handle route hd = .ok r2) :
    mapHas r.routeMap route = false ∧
    r2.routeMap = r.routeMap ++ [(route, hd)] ∧
    ((atLast route == some '/') = true ∧
        r2.orderedRoutes = splice0 r.orderedRoutes
          (jsFindIdx r.orderedRoutes (fun orderedRoute => orderedRoute.length < route.length))
          route ∨
      (atLast route == some '/') = false ∧ r2.orderedRoutes = r.orderedRoutes) := by
  unfold Router.handle at hstep
  by_cases h1 : (route == "") = true
  · rw [if_pos h1] at hstep
    simp at hstep
  · rw [if_neg h1] at hstep
    by_cases h2 : mapHas r.routeMap route = true
    · rw [if_pos h2] at hstep
      simp at hstep
    · rw [if_neg h2] at hstep
      have h2b : mapHas r.routeMap route = false := by
        exact Bool.not_eq_true _ |>.mp h2
      simp only [Except.ok.injEq] at hstep
      refine ⟨h2b, ?_, ?_⟩
      · rw [← hstep]
        show mapSet r.routeMap route hd = r.routeMap ++ [(route, hd)]
        unfold mapSet
        rw [h2b]
        simp
      · by_cases h3 : (atLast route == some '/') = true
        · left
          refine ⟨h3, ?_⟩
          rw [← hstep]
          show (if (atLast route == some '/') = true then _ else _) = _
          rw [if_pos h3]
        · right
          refine ⟨Bool.not_eq_true _ |>.mp h3, ?_⟩
          rw [← hstep]
          show (if (atLast route == some '/') = true then _ else _) = _
          rw [if_neg h3]

theorem mapHas_append_self {H : Type} (m : List (String × H)) (k : String) (v : H) :
    mapHas (m ++ [(k, v)]) k = true := by
  simp [mapHas]

theorem mapHas_append_of_mapHas {H : Type} (m : List (String × H)) (k k2 : String) (v : H)
    (h : mapHas m k2 = true) : mapHas (m ++ [(k, v)]) k2 = true := by
  simp [mapHas] at h ⊢
  exact Or.inl h

theorem isSome_mapGet_of_mapHas {H : Type} (m : List (String × H)) (k : String)
    (h : mapHas m k = true) : (mapGet m k).isSome = true := by
  induction m with
  | nil => simp [mapHas] at h
  | cons p m ih =>
    cases hp : (p.1 == k)
    · rw [mapHas, List.any_cons, hp] at h
      simp only [Bool.false_or] at h
      rw [mapGet, List.find?_cons_of_neg _ (by simp [hp])]
      exact ih h
    · rw [mapGet, List.find?_cons_of_pos (p := fun q => q.1 == k) m hp]
      simp

theorem mem_splice0 {α : Type} (xs : List α) (i : Int) (item x : α)
    (hx : x ∈ splice0 xs i item) : x = item ∨ x ∈ xs := by
  unfold splice0 at hx
  simp [List.mem_append] at hx
  rcases hx with h | h | h
  · exact Or.inr (List.take_subset _ _ h)
  · exact Or.inl h
  · exact Or.inr (List.drop_subset _ _ h)

/-- C10: after any sequence of successful `handle` calls, every entry of
`#orderedRoutes` is a key of `#routeMap` and ends in a slash, so the
subtree scan of `#match` never looks up a route whose handler is absent:
whatever first ordered route a path is found to start with has a present
(`isSome`) handler in the exact table. -/
theorem orderedRoutes_subset_routeMap {H : Type} (r : Router H) (hr : Reachable r) :
    (∀ s ∈ r.orderedRoutes, mapHas r.routeMap s = true ∧ atLast s = some '/') ∧
    (∀ path reg, r.orderedRoutes.find? (fun t => jsStartsWith path t) = some reg →
      (mapGet r.routeMap reg).isSome = true) := by
  have main : ∀ s ∈ r.orderedRoutes, mapHas r.routeMap s = true ∧ atLast s = some '/' := by
    induction hr with
    | empty =>
      intro s hs
      simp [Router.empty] at hs
    | step hr hstep ih =>
      rename_i rr r2 route hd
      intro s hs
      obtain ⟨hnotin, hmap, hord⟩ := handle_ok_fields hstep
      rcases hord with ⟨hslash, hord⟩ | ⟨hnoslash, hord⟩
      · rw [hord] at hs
        rcases mem_splice0 _ _ _ _ hs with rfl | hold
        · exact ⟨hmap ▸ mapHas_append_self rr.routeMap s hd, by simpa using hslash⟩
        · obtain ⟨hh1, hh2⟩ := ih s hold
          exact ⟨hmap ▸ mapHas_append_of_mapHas rr.routeMap route s hd hh1, hh2⟩
      · rw [hord] at hs
        obtain ⟨hh1, hh2⟩ := ih s hs
        exact ⟨hmap ▸ mapHas_append_of_mapHas rr.routeMap route s hd hh1, hh2⟩
  refine ⟨main, ?_⟩
  intro path reg hfind
  have hmem : reg ∈ r.orderedRoutes := List.mem_of_find?_eq_some hfind
  exact isSome_mapGet_of_mapHas _ _ (main reg hmem).1

/-- Witness for C10: the router reached by registering "/a/" on a fresh
router has "/a/" in its ordered list, registered in the exact table and
ending in a slash. -/
theorem orderedRoutes_subset_routeMap_witness :
    mapHas ({ routeMap := [("/a/", (1 : Nat))], orderedRoutes := ["/a/"],
              hosts := false } : Router Nat).routeMap "/a/" = true ∧
    atLast "/a/" = some '/' := by
  have hreach : Reachable ({ routeMap := [("/a/", (1 : Nat))], orderedRoutes := ["/a/"],
                             hosts := false } : Router Nat) :=
    Reachable.step Reachable.empty
      (show Router.empty.handle "/a/" (1 : Nat) =
        .ok { routeMap := [("/a/", 1)], orderedRoutes := ["/a/"], hosts := false } from rfl)
  exact (orderedRoutes_subset_routeMap _ hreach).1 "/a/" (by simp)

end HttpRouter
